import Mathlib

/-!
Verification of the hiku federation SDL exporter (`src/federation/sdl.py`)
against its graph model (`src/hiku/graph.py`).

The Python sources are embedded shallowly: every pure function becomes a Lean
function, Python exceptions become `Except String`, and Python's dynamically
typed AST values become closed inductive types.  Where `src/federation/sdl.py`
uses entities that are absent from the copy of `src/hiku/graph.py` in this
repository (the newer `Graph` carrying `data_types`, `Node`/`Root` with
directives, `GraphTransformer`, the `hiku.types` type algebra and the
`hiku.introspection` descriptors), those entities are modelled from the spec;
each such definition says so in its doc comment.
-/

namespace Hiku

/-- The internal type algebra of `hiku.types`.
Modelled from the spec: `hiku/types.py` is not under `src/`; the spec's closed
variant set is `Optional(T)`, `TypeRef(name)`, `Integer`, `String`, `Boolean`,
`Float`, `Any`, `Sequence(item)`.  The `*Meta` classes tested by
`isinstance` in `_encode_type` correspond one-to-one to these constructors. -/
inductive TypeExpr where
  | Optional (t : TypeExpr)
  | TypeRef (name : String)
  | Integer
  | String
  | Boolean
  | Sequence (item : TypeExpr)
  | Any
  | Float
  deriving DecidableEq, Repr

/-- GraphQL type-position AST nodes, as `src/federation/sdl.py` builds them:
`ast.NameNode` (the code puts a bare `NameNode` in type position via
`coerce`/`_name`), `ast.ListTypeNode` and `ast.NonNullTypeNode`. -/
inductive TypeNode where
  | nameNode (value : String)
  | listType (type : TypeNode)
  | nonNull (type : TypeNode)
  deriving DecidableEq, Repr

/-- A value that is either a Python `str` or an AST type node — the two shapes
the undecorated `_encode` body returns besides tuples (sdl.py lines 74-95). -/
inductive StrOrNode where
  | str (s : String)
  | node (n : TypeNode)
  deriving DecidableEq, Repr

/-- `coerce` from `_encode_type` (sdl.py lines 52-55): a string becomes
`_name(x)` (a `NameNode`), anything else passes through. -/
def coerce : StrOrNode → TypeNode
  | .str s => .nameNode s
  | .node n => n

/-- `_non_null` from `_encode_type` (sdl.py lines 57-58). -/
def _non_null (v : StrOrNode) : TypeNode :=
  .nonNull (coerce v)

/-- The values the decorated `_encode` can return: an AST node, or the tuple
`(val, True)` produced by the `kw.get('optional')` branch of `not_null`
(sdl.py lines 61-72). -/
inductive DecRes where
  | node (n : TypeNode)
  | pair (v : StrOrNode) (optional : Bool)
  deriving DecidableEq, Repr

/-- The dynamic value `val` inspected inside the decorator `not_null`:
either a tuple `(type_, optional)` or a plain string/node. -/
inductive PyVal where
  | tup (v : StrOrNode) (o : Bool)
  | v (x : StrOrNode)
  deriving DecidableEq, Repr

/-- Reinjection of a decorated recursive result into the decorator's dynamic
`val`: a tuple stays a tuple, a node is just a (non-string) value. -/
def toPyVal : DecRes → PyVal
  | .node n => .v (.node n)
  | .pair v o => .tup v o

/-- The body of `dec` inside the `not_null` decorator (sdl.py lines 62-71):
a tuple is unpacked and its own `optional` component decides wrapping
(shadowing the keyword); otherwise the `optional` keyword of the current call
decides between returning `(val, True)` and wrapping non-null. -/
def dec : PyVal → Bool → DecRes
  | .tup v o, _ => if o then .node (coerce v) else .node (_non_null v)
  | .v x, opt => if opt then .pair x true else .node (_non_null x)

/-- Extraction of the final return value of `_encode_type`: with the optional
keyword absent at the top call, `dec` always returns a node; the tuple branch
is unreachable there and is mapped through `coerce` for totality. -/
def extract : DecRes → TypeNode
  | .node n => n
  | .pair v _ => coerce v

/-- The decorated `_encode` (sdl.py lines 74-95) on a proper `TypeExpr`.
Each branch returns the raw body value passed through the decorator `dec`;
the `Sequence` branch calls the top-level `_encode_type` on the item, which
restarts the recursion with the optional flag false (inlined here as
`extract (_encode_expr item false)`, definitionally `_encode_type (some item)`). -/
def _encode_expr : TypeExpr → Bool → DecRes
  | .Optional t, opt => dec (toPyVal (_encode_expr t true)) opt
  | .TypeRef n, opt => dec (.v (.str n)) opt
  | .Integer, opt => dec (.v (.str "Int")) opt
  | .String, opt => dec (.v (.str "String")) opt
  | .Boolean, opt => dec (.v (.str "Boolean")) opt
  | .Sequence item, opt =>
      dec (.v (.node (.listType (extract (_encode_expr item false))))) opt
  | .Any, opt => dec (.v (.str "Any")) opt
  | .Float, opt => dec (.v (.str "Float")) opt

/-- The decorated `_encode` including the `val is None` branch (sdl.py
line 92-93): `None` encodes the empty name. -/
def _encode : Option TypeExpr → Bool → DecRes
  | some t, opt => _encode_expr t opt
  | none, opt => dec (.v (.str "")) opt

/-- `_encode_type` (sdl.py lines 51-97): the decorated `_encode` called with
no `optional` keyword. -/
def _encode_type (value : Option TypeExpr) : TypeNode :=
  extract (_encode value false)

/-- Whether the outermost constructor of a `TypeExpr` is `Optional`. -/
def isOptionalExpr : TypeExpr → Bool
  | .Optional _ => true
  | _ => false

/-- The domain of default values fed to `_encode_default_value`
(sdl.py lines 100-123): the `Nothing` sentinel from `hiku.graph`, `None`,
booleans, integers, floats, strings, and non-string iterables (lists).
A float is modelled by its finiteness and its `%g` rendering, which is
carried opaquely (floating-point formatting itself is not modelled). -/
inductive Value where
  | nothing
  | null
  | bool (b : Bool)
  | int (n : Int)
  | float (finite : Bool) (format : String)
  | str (s : String)
  | list (items : List Value)

mutual

/-- An element stored in a `ListValueNode.values` list.  Python is untyped
here: `_encode_default_value` stores `[value_nodes]`, i.e. a raw Python list
of nodes, as the single element, so an element is either a proper value node
or a raw list of value nodes. -/
inductive ValueElem : Type where
  | node (n : ValueNode)
  | rawList (ns : List ValueNode)

/-- GraphQL value-literal AST nodes as built by sdl.py: `NullValueNode`,
`BooleanValueNode`, `IntValueNode`, `FloatValueNode`, `StringValueNode`,
`ListValueNode`. -/
inductive ValueNode : Type where
  | nullValue
  | booleanValue (b : Bool)
  | intValue (s : String)
  | floatValue (s : String)
  | stringValue (s : String)
  | listValue (values : List ValueElem)

end

mutual

/-- `_encode_default_value` (sdl.py lines 100-123).  The branches are tried in
source order: the `Nothing` sentinel yields no node (`None`), `None` a null
literal, `bool` before `int` (bool is a subtype of int in Python), finite
floats a `%g` literal, strings a string literal, any other iterable a
`ListValueNode` whose `values` field is the Python list `[value_nodes]` — a
singleton containing the raw list of encoded, `None`-filtered elements.
Everything else (including non-finite floats) raises `TypeError`. -/
def _encode_default_value : Value → Except String (Option ValueNode)
  | .nothing => .ok none
  | .null => .ok (some .nullValue)
  | .bool b => .ok (some (.booleanValue b))
  | .int n => .ok (some (.intValue (toString n)))
  | .float finite format =>
      if finite then .ok (some (.floatValue format))
      else .error "Cannot convert value to AST"
  | .str s => .ok (some (.stringValue s))
  | .list items =>
      match encodeListItems items with
      | .error e => .error e
      | .ok value_nodes => .ok (some (.listValue [.rawList value_nodes]))

/-- `list(filter(None, (_encode_default_value(item) for item in value)))`
from the iterable branch of `_encode_default_value` (sdl.py lines 119-120):
encode each element in order, drop the `None` results, propagate the first
`TypeError`. -/
def encodeListItems : List Value → Except String (List ValueNode)
  | [] => .ok []
  | v :: rest =>
      match _encode_default_value v with
      | .error e => .error e
      | .ok mb =>
          match encodeListItems rest with
          | .error e => .error e
          | .ok ns =>
              match mb with
              | none => .ok ns
              | some n => .ok (n :: ns)

end

/-- The introspection type descriptors from `hiku.introspection.types` used by
`_encode_directive_arg_type`.  Modelled from the spec: that module is not
under `src/`; sdl.py tests `isinstance(value, NON_NULL)` (carrying `of_type`)
and `isinstance(value, SCALAR)` (carrying `name`); `other` stands for any
descriptor of a different class, which hits the `raise` branch. -/
inductive DirArgType where
  | NON_NULL (of_type : DirArgType)
  | SCALAR (name : String)
  | other (descr : String)
  deriving DecidableEq, Repr

/-- The literal-node constructors `_encode_directive_arg_type` can hand back;
only `ast.StringValueNode` is ever produced (sdl.py lines 142-144). -/
inductive ValueNodeCtor where
  | stringValueNode
  deriving DecidableEq, Repr

/-- `_encode_directive_arg_type` (sdl.py lines 141-151).  The inner `_encode`
returns `ast.StringValueNode` for the scalar name `'String'` and falls off the
end (returning `None`) for every other scalar name; `NON_NULL` recurses into
`of_type`; any other descriptor raises `TypeError`. -/
def _encode_directive_arg_type : DirArgType → Except String (Option ValueNodeCtor)
  | .NON_NULL t => _encode_directive_arg_type t
  | .SCALAR n => .ok (if n = "String" then some .stringValueNode else none)
  | .other d => .error ("Unsupported arg type: " ++ d)

/-- `hiku.introspection.directive.Arg`.  Modelled from the spec: the module is
not under `src/`; sdl.py reads `arg.name`, `arg.type` (a scalar-kind
descriptor) and `arg.value`. -/
structure Arg where
  name : String
  type : DirArgType
  value : String

/-- `hiku.introspection.directive.Directive`.  Modelled from the spec: the
module is not under `src/`; sdl.py reads `obj.name` and `obj.args`. -/
structure Directive where
  name : String
  args : List Arg

/-- `hiku.graph.Option` (graph.py lines 27-43), renamed because `Option` is
taken by Lean.  `default` may be the `Nothing` sentinel (`Value.nothing`).
The `description` attribute read by `Exporter.visit_option` is modelled from
the spec: the `Option` class in `src/hiku/graph.py` is an older revision
without it. -/
structure GOption where
  name : String
  type : Option TypeExpr
  default : Value
  description : Option String

/-- `hiku.graph.Field` (graph.py lines 50-76).  The `directives` attribute
read by `Exporter.visit_field` is modelled from the spec: the `Field` class in
`src/hiku/graph.py` is an older revision without it. -/
structure Field where
  name : String
  type : Option TypeExpr
  options : List GOption
  description : Option String
  directives : List Directive

/-- `hiku.graph.Link` (graph.py lines 83-102); the resolver and `requires`
bindings are opaque and irrelevant to export, so they are omitted. -/
structure Link where
  name : String
  type : Option TypeExpr
  options : List GOption
  description : Option String
  directives : List Directive

/-- A member of a node's `fields` sequence: a `Field` or a `Link`; the tag
stands for the dynamic dispatch `accept` → `visit_field`/`visit_link`. -/
inductive FieldOrLink where
  | fld (f : Field)
  | lnk (l : Link)

/-- `field.name`, uniformly over fields and links. -/
def FieldOrLink.name : FieldOrLink → String
  | .fld f => f.name
  | .lnk l => l.name

/-- A top-level item of `Graph.items`: a `Root` (the anonymous edge,
`name = None`, dispatched to `visit_root`) or a named `Node` (dispatched to
`visit_node`).  Modelled from the spec: `src/hiku/graph.py` is an older
revision with `Edge`/`visit_edge` and no node directives; the spec and sdl.py
use `Node`/`Root` with `name`, `fields`, `description`, `directives`. -/
inductive NodeItem where
  | root (fields : List FieldOrLink)
  | node (name : String) (fields : List FieldOrLink) (description : Option String)
      (directives : List Directive)

/-- `hiku.types.Record`: `__field_types__`, a field-name → type mapping in
insertion order.  Modelled from the spec (`hiku/types.py` is not under
`src/`); a field's type may be `None` (a record field pending typing). -/
structure Record where
  field_types : List (String × Option TypeExpr)

/-- `hiku.graph.Graph` as used by sdl.py: `items` plus the `data_types`
mapping in iteration (= insertion) order.  Modelled from the spec: the
`Graph` class in `src/hiku/graph.py` is an older revision whose constructor
takes `items` only, while sdl.py reads `obj.data_types` and rebuilds graphs
as `Graph(items, data_types)`. -/
structure Graph where
  items : List NodeItem
  data_types : List (String × Record)

/-- `ast.InputValueDefinitionNode` as built by `Exporter.visit_option`
(sdl.py lines 211-217).  `name` holds `_name(value)`, which is `None` only
when the value is `None`; `default_value` is `None` when the default was the
`Nothing` sentinel. -/
structure InputValueDefinitionNode where
  name : Option String
  description : Option String
  type : TypeNode
  default_value : Option ValueNode

/-- `ast.ArgumentNode` as built by `Exporter.visit_directive_arg`. -/
structure ArgumentNode where
  name : Option String
  value : ValueNode

/-- `ast.DirectiveNode` as built by `Exporter.visit_directive`. -/
structure DirectiveNode where
  name : Option String
  arguments : List ArgumentNode

/-- `ast.FieldDefinitionNode`.  `arguments` and `directives` are `Option`s
because graphql-core leaves an omitted keyword as `None`: `visit_record`'s
fields carry neither, `visit_link` omits `directives`. -/
structure FieldDefinitionNode where
  name : Option String
  type : TypeNode
  arguments : Option (List InputValueDefinitionNode)
  directives : Option (List DirectiveNode)

/-- The top-level definition nodes `Exporter` produces:
`ast.ScalarTypeDefinitionNode`, `ast.ObjectTypeDefinitionNode` and
`ast.ObjectTypeExtensionNode` (`directives` is `None` where the keyword is
omitted, as in `visit_record`). -/
inductive DefinitionNode where
  | scalarTypeDefinition (name : Option String)
  | objectTypeDefinition (name : Option String) (fields : List FieldDefinitionNode)
      (directives : Option (List DirectiveNode))
  | objectTypeExtension (name : Option String) (fields : List FieldDefinitionNode)
      (directives : Option (List DirectiveNode))

/-- A Python list comprehension `[f(x) for x in l]` over a fallible `f`:
apply `f` left to right, stop at the first exception. -/
def mapE {α β : Type} (f : α → Except String β) : List α → Except String (List β)
  | [] => .ok []
  | a :: rest =>
      match f a with
      | .error e => .error e
      | .ok b =>
          match mapE f rest with
          | .error e => .error e
          | .ok bs => .ok (b :: bs)

namespace Exporter

/-- `Exporter.get_any_type` (sdl.py lines 165-166). -/
def get_any_type : DefinitionNode :=
  .scalarTypeDefinition (some "Any")

/-- `Exporter.visit_option` (sdl.py lines 211-217). -/
def visit_option (obj : GOption) : Except String InputValueDefinitionNode :=
  match _encode_default_value obj.default with
  | .error e => .error e
  | .ok dv => .ok ⟨some obj.name, obj.description, _encode_type obj.type, dv⟩

/-- `Exporter.visit_directive_arg` (sdl.py lines 189-193): the constructor
returned by `_encode_directive_arg_type` is called on `arg.value`; when that
encoder silently produced `None`, the call `None(value=...)` raises
`TypeError: 'NoneType' object is not callable`. -/
def visit_directive_arg (arg : Arg) : Except String ArgumentNode :=
  match _encode_directive_arg_type arg.type with
  | .error e => .error e
  | .ok (some .stringValueNode) => .ok ⟨some arg.name, .stringValue arg.value⟩
  | .ok none => .error "TypeError: NoneType object is not callable"

/-- `Exporter.visit_directive` (sdl.py lines 183-187). -/
def visit_directive (obj : Directive) : Except String DirectiveNode :=
  match mapE visit_directive_arg obj.args with
  | .error e => .error e
  | .ok args => .ok ⟨some obj.name, args⟩

/-- `Exporter.visit_field` (sdl.py lines 175-181). -/
def visit_field (obj : Field) : Except String FieldDefinitionNode :=
  match mapE visit_option obj.options with
  | .error e => .error e
  | .ok args =>
      match mapE visit_directive obj.directives with
      | .error e => .error e
      | .ok dirs => .ok ⟨some obj.name, _encode_type obj.type, some args, some dirs⟩

/-- `Exporter.visit_link` (sdl.py lines 204-209): no `directives` keyword. -/
def visit_link (obj : Link) : Except String FieldDefinitionNode :=
  match mapE visit_option obj.options with
  | .error e => .error e
  | .ok args => .ok ⟨some obj.name, _encode_type obj.type, some args, none⟩

/-- `self.visit(field)` on a member of a node's field list. -/
def visit_fieldOrLink : FieldOrLink → Except String FieldDefinitionNode
  | .fld f => visit_field f
  | .lnk l => visit_link l

/-- `self.visit(item)` on a top-level item: `Exporter.visit_root`
(sdl.py lines 168-173, a `Query` type extension with `directives=[]`) or
`Exporter.visit_node` (sdl.py lines 195-202). -/
def visit_item : NodeItem → Except String DefinitionNode
  | .root fields =>
      match mapE visit_fieldOrLink fields with
      | .error e => .error e
      | .ok fs => .ok (.objectTypeExtension (some "Query") fs (some []))
  | .node name fields _ directives =>
      match mapE visit_fieldOrLink fields with
      | .error e => .error e
      | .ok fs =>
          match mapE visit_directive directives with
          | .error e => .error e
          | .ok ds => .ok (.objectTypeDefinition (some name) fs (some ds))

/-- `Exporter.visit_record` (sdl.py lines 219-229): an object type whose
fields are the record's `__field_types__` entries in order, each field with
only a name and an encoded type (no arguments, no directives keyword). -/
def visit_record (type_name : String) (obj : Record) : DefinitionNode :=
  .objectTypeDefinition (some type_name)
    (obj.field_types.map (fun p => ⟨some p.1, _encode_type p.2, none, none⟩))
    none

/-- `Exporter.visit_graph` (sdl.py lines 156-163): the `Any` scalar, then one
record definition per `data_types` entry in mapping order, then one
definition per graph item in order. -/
def visit_graph (obj : Graph) : Except String (List DefinitionNode) :=
  match mapE visit_item obj.items with
  | .error e => .error e
  | .ok items =>
      .ok (get_any_type ::
        (obj.data_types.map (fun p => visit_record p.1 p.2) ++ items))

end Exporter

/-- Modelled from the spec: `hiku.graph.GraphTransformer` is not under `src/`
(only the read-only `GraphVisitor` is); its default `visit_option`
"reconstructs an equivalent entity of the same kind from the (possibly
transformed) children". -/
def transform_option (o : GOption) : GOption :=
  ⟨o.name, o.type, o.default, o.description⟩

/-- Modelled from the spec: `GraphTransformer`'s default `visit_field`
rebuilds the field from its transformed options. -/
def transform_field (f : Field) : Field :=
  ⟨f.name, f.type, f.options.map transform_option, f.description, f.directives⟩

/-- Modelled from the spec: `GraphTransformer`'s default `visit_link`
rebuilds the link from its transformed options. -/
def transform_link (l : Link) : Link :=
  ⟨l.name, l.type, l.options.map transform_option, l.description, l.directives⟩

/-- `self.visit(f)` under `_StripGraph` on a field-list member: `_StripGraph`
overrides no field/link/option method, so the `GraphTransformer` defaults
apply. -/
def transform_fieldOrLink : FieldOrLink → FieldOrLink
  | .fld f => .fld (transform_field f)
  | .lnk l => .lnk (transform_link l)

/-- Python's `name.startswith('__')` (sdl.py line 250): the first two
characters are underscores.  Written over the character list so that it
evaluates inside the kernel (`String.startsWith` does not reduce there). -/
def startswith_dunder (s : String) : Bool :=
  match s.data with
  | '_' :: '_' :: _ => true
  | _ => false

namespace _StripGraph

/-- `_StripGraph.visit_root` (sdl.py lines 238-242): drop the fields named
`__typename` or `_entities`, transform the rest, rebuild the `Root`. -/
def visit_root (fields : List FieldOrLink) : NodeItem :=
  .root ((fields.filter
    (fun f => !(f.name == "__typename" || f.name == "_entities"))).map
      transform_fieldOrLink)

/-- `_StripGraph.visit_node` (sdl.py lines 257-266): drop the fields named
`__typename`, transform the rest, keep name, description and directives. -/
def visit_node (name : String) (fields : List FieldOrLink)
    (description : Option String) (directives : List Directive) : NodeItem :=
  .node name
    ((fields.filter (fun f => !(f.name == "__typename"))).map transform_fieldOrLink)
    description directives

/-- `self.visit(node)` on a top-level item, dispatching to the overridden
`visit_root`/`visit_node`. -/
def visit_item : NodeItem → NodeItem
  | .root fs => visit_root fs
  | .node n fs d ds => visit_node n fs d ds

/-- `skip` inside `_StripGraph.visit_graph` (sdl.py lines 245-250): a
nameless item is the synthetic introspection root iff `'__schema'` is in its
`fields_map`; a named node is skipped iff its name starts with `__`. -/
def skip : NodeItem → Bool
  | .root fs => fs.any (fun f => f.name == "__schema")
  | .node n _ _ _ => startswith_dunder n

/-- `_StripGraph.visit_graph` (sdl.py lines 244-255): rebuild the graph from
the visited non-skipped items and the untouched `data_types`. -/
def visit_graph (obj : Graph) : Graph :=
  ⟨(obj.items.filter (fun node => !skip node)).map visit_item, obj.data_types⟩

end _StripGraph

/-- A small concrete graph: a root field `version: String`, a `User` node
with a field and a link, and one data type `Meta`. -/
def exampleGraph : Graph :=
  ⟨[.root [.fld ⟨"version", some .String, [], none, []⟩],
    .node "User"
      [.fld ⟨"id", some .Integer, [], none, []⟩,
       .lnk ⟨"friends", some (.Sequence (.TypeRef "User")), [], none, []⟩]
      none []],
   [("Meta", ⟨[("flag", some .Boolean)]⟩)]⟩

/-- The definition list `Exporter.visit_graph` produces for `exampleGraph`. -/
def exampleDefs : List DefinitionNode :=
  [.scalarTypeDefinition (some "Any"),
   .objectTypeDefinition (some "Meta")
     [⟨some "flag", .nonNull (.nameNode "Boolean"), none, none⟩] none,
   .objectTypeExtension (some "Query")
     [⟨some "version", .nonNull (.nameNode "String"), some [], some []⟩] (some []),
   .objectTypeDefinition (some "User")
     [⟨some "id", .nonNull (.nameNode "Int"), some [], some []⟩,
      ⟨some "friends", .nonNull (.listType (.nonNull (.nameNode "User"))), some [],
        none⟩]
     (some [])]

/-- A concrete graph containing every introspection member the stripping pass
removes: a `__`-prefixed node, the synthetic introspection root (nameless,
with `__schema`), a `__typename` field on a node, and `__typename` and
`_entities` on the root. -/
def introspectionGraph : Graph :=
  ⟨[.node "__Type" [] none [],
    .root [.fld ⟨"__schema", none, [], none, []⟩],
    .node "User"
      [.fld ⟨"__typename", none, [], none, []⟩,
       .fld ⟨"id", some .Integer, [], none, []⟩] none [],
    .root [.fld ⟨"__typename", none, [], none, []⟩,
           .fld ⟨"_entities", none, [], none, []⟩,
           .fld ⟨"version", some .String, [], none, []⟩]],
   []⟩

/-- The first item of the stripped `introspectionGraph`. -/
def strippedUserNode : NodeItem :=
  .node "User" [.fld ⟨"id", some .Integer, [], none, []⟩] none []

/-- Whether an `Except` computation raised (ended in the `error` state). -/
def is_error {α : Type} : Except String α → Bool
  | .error _ => true
  | .ok _ => false

/-! ## Properties of the type encoder -/

/-- Every `TypeExpr` is, under the decorator protocol, in one of two states:
with the optional keyword set, `_encode_expr` returns the tuple `(v, True)`
and without it the non-null-wrapped `coerce v` (state of even `Optional`
nesting depth), or it returns the same bare node in both modes (odd
nesting depth). -/
lemma encode_states (t : TypeExpr) :
    (∃ v, _encode_expr t true = .pair v true ∧
          _encode_expr t false = .node (.nonNull (coerce v)))
    ∨ (∃ n, _encode_expr t true = .node n ∧ _encode_expr t false = .node n) := by
  induction t with
  | Optional t ih =>
      rcases ih with ⟨v, ht, _⟩ | ⟨n, ht, _⟩
      · right
        exact ⟨coerce v, by simp [_encode_expr, ht, toPyVal, dec],
               by simp [_encode_expr, ht, toPyVal, dec]⟩
      · left
        refine ⟨.node n, ?_, ?_⟩ <;>
          simp [_encode_expr, ht, toPyVal, dec, _non_null, coerce]
  | TypeRef n => exact .inl ⟨.str n, rfl, rfl⟩
  | Integer => exact .inl ⟨.str "Int", rfl, rfl⟩
  | String => exact .inl ⟨.str "String", rfl, rfl⟩
  | Boolean => exact .inl ⟨.str "Boolean", rfl, rfl⟩
  | Sequence item _ =>
      exact .inl ⟨.node (.listType (extract (_encode_expr item false))), rfl, rfl⟩
  | Any => exact .inl ⟨.str "Any", rfl, rfl⟩
  | Float => exact .inl ⟨.str "Float", rfl, rfl⟩

/-- C1: for every `TypeExpr` whose outermost constructor is not `Optional`,
`_encode_type` returns a non-null wrapper applied exactly once at the
outermost level: the result is `NonNullTypeNode(inner)` with `inner` itself
not a non-null node. -/
theorem encode_type_nonnull_once (t : TypeExpr) (h : isOptionalExpr t = false) :
    ∃ inner, _encode_type (some t) = .nonNull inner ∧
      ∀ m, inner ≠ TypeNode.nonNull m := by
  cases t with
  | Optional t => simp [isOptionalExpr] at h
  | TypeRef n => exact ⟨.nameNode n, rfl, by intro m; simp⟩
  | Integer => exact ⟨.nameNode "Int", rfl, by intro m; simp⟩
  | String => exact ⟨.nameNode "String", rfl, by intro m; simp⟩
  | Boolean => exact ⟨.nameNode "Boolean", rfl, by intro m; simp⟩
  | Sequence item =>
      exact ⟨.listType (_encode_type (some item)), rfl, by intro m; simp⟩
  | Any => exact ⟨.nameNode "Any", rfl, by intro m; simp⟩
  | Float => exact ⟨.nameNode "Float", rfl, by intro m; simp⟩

/-- Witness for C1 at the concrete input `Integer`. -/
theorem encode_type_nonnull_once_witness :
    isOptionalExpr .Integer = false ∧
    ∃ inner, _encode_type (some .Integer) = .nonNull inner ∧
      ∀ m, inner ≠ TypeNode.nonNull m :=
  ⟨rfl, encode_type_nonnull_once .Integer rfl⟩

/-- C2 counterexample: at `T = Integer` the claimed flattening fails —
`_encode_type(Optional(Optional(Integer)))` is the non-null `Int` node while
`_encode_type(Optional(Integer))` is the nullable `Int` node. -/
theorem double_optional_counterexample :
    _encode_type (some (.Optional (.Optional .Integer))) =
        .nonNull (.nameNode "Int") ∧
    _encode_type (some (.Optional .Integer)) = .nameNode "Int" ∧
    _encode_type (some (.Optional (.Optional .Integer))) ≠
      _encode_type (some (.Optional .Integer)) :=
  ⟨rfl, rfl, by decide⟩

/-- C2 (amended): a double `Optional` wrapper cancels instead of flattening —
for every `T`, encoding `Optional(Optional(T))` produces the same AST as
encoding `T` itself, so nullability is decided by the parity of the
`Optional` nesting depth, not by the outermost wrapper. -/
theorem double_optional_cancels (t : TypeExpr) :
    _encode_type (some (.Optional (.Optional t))) = _encode_type (some t) := by
  rcases encode_states t with ⟨v, ht, hf⟩ | ⟨n, ht, hf⟩ <;>
    simp [_encode_type, _encode, _encode_expr, ht, hf, toPyVal, dec, extract,
      coerce, _non_null]

/-- C3: the encoder determines list-item nullability from the item's own
`TypeExpr` alone — the `Sequence` branch re-enters `_encode_type` on the item
with the optional flag restarted at false, whatever the flag at the list
level; consequently `Sequence(Optional(Integer))` encodes to `[Int]!` and
`Optional(Sequence(Integer))` to `[Int!]`. -/
theorem sequence_item_nullability :
    (∀ (item : TypeExpr) (b : Bool),
        _encode_expr (.Sequence item) b =
          if b then .pair (.node (.listType (_encode_type (some item)))) true
          else .node (.nonNull (.listType (_encode_type (some item))))) ∧
    _encode_type (some (.Sequence (.Optional .Integer))) =
      .nonNull (.listType (.nameNode "Int")) ∧
    _encode_type (some (.Optional (.Sequence .Integer))) =
      .listType (.nonNull (.nameNode "Int")) := by
  refine ⟨fun item b => ?_, rfl, rfl⟩
  cases b <;> rfl

/-! ## Properties of the default-value encoder -/

/-- C7: the default-value encoder distinguishes the `Nothing` (Absent)
sentinel from an explicit `None`: for any option, a `Nothing` default yields
an input-value definition with no default-value node, while a `None` default
yields an explicit null literal node. -/
theorem option_default_absent_vs_null (n : String) (ty : Option TypeExpr)
    (descr : Option String) :
    Exporter.visit_option ⟨n, ty, .nothing, descr⟩ =
      .ok ⟨some n, descr, _encode_type ty, none⟩ ∧
    Exporter.visit_option ⟨n, ty, .null, descr⟩ =
      .ok ⟨some n, descr, _encode_type ty, some .nullValue⟩ :=
  ⟨rfl, rfl⟩

/-- C8: evaluating the iterable branch at the default value `[1, Absent, 2]`.
The recursively encoded, `Absent`-filtered elements are computed correctly,
but `ast.ListValueNode(values=[value_nodes])` stores them as ONE element — a
raw Python list — instead of as the element list itself, so the resulting
node differs from the list literal whose elements are the encoded values. -/
theorem list_default_extra_nesting :
    _encode_default_value (.list [.int 1, .nothing, .int 2]) =
      .ok (some (.listValue [.rawList [.intValue "1", .intValue "2"]])) ∧
    ValueNode.listValue [.rawList [.intValue "1", .intValue "2"]] ≠
      ValueNode.listValue [.node (.intValue "1"), .node (.intValue "2")] :=
  ⟨rfl, by simp⟩

/-! ## Properties of the directive-argument type encoder -/

/-- C9 counterexample: for the scalar kind `Int` (not `String`),
`_encode_directive_arg_type` does not fail with an unsupported-type error —
it silently returns `None` (no literal-node constructor). -/
theorem directive_arg_silent_none :
    _encode_directive_arg_type (.SCALAR "Int") = .ok none ∧
    is_error (_encode_directive_arg_type (.SCALAR "Int")) = false :=
  ⟨rfl, rfl⟩

/-- C9 (amended): a directive argument whose scalar kind is not `String`
(also after unwrapping non-null) makes `_encode_directive_arg_type` return
`None` silently; the failure only surfaces in `visit_directive_arg`, where
the missing constructor is called (`TypeError: NoneType ... not callable`).
The explicit unsupported-type error is raised only for argument type
descriptors that are neither `NON_NULL` nor `SCALAR`. -/
theorem directive_arg_unmapped_scalar (n : String) (h : n ≠ "String") :
    _encode_directive_arg_type (.SCALAR n) = .ok none ∧
    _encode_directive_arg_type (.NON_NULL (.SCALAR n)) = .ok none ∧
    (∀ a v, Exporter.visit_directive_arg ⟨a, .SCALAR n, v⟩ =
      .error "TypeError: NoneType object is not callable") ∧
    (∀ d, _encode_directive_arg_type (.other d) =
      .error ("Unsupported arg type: " ++ d)) := by
  have hn : _encode_directive_arg_type (.SCALAR n) = .ok none := by
    simp [_encode_directive_arg_type, h]
  refine ⟨hn, ?_, ?_, fun d => rfl⟩
  · simpa [_encode_directive_arg_type] using hn
  · intro a v
    simp [Exporter.visit_directive_arg, hn]

/-- Witness for the amended C9 at the concrete scalar kind `Int`. -/
theorem directive_arg_unmapped_scalar_witness :
    ("Int" : String) ≠ "String" ∧
    (_encode_directive_arg_type (.SCALAR "Int") = .ok none ∧
     _encode_directive_arg_type (.NON_NULL (.SCALAR "Int")) = .ok none ∧
     (∀ a v, Exporter.visit_directive_arg ⟨a, .SCALAR "Int", v⟩ =
       .error "TypeError: NoneType object is not callable") ∧
     (∀ d, _encode_directive_arg_type (.other d) =
       .error ("Unsupported arg type: " ++ d))) :=
  ⟨by decide, directive_arg_unmapped_scalar "Int" (by decide)⟩

/-! ## Properties of the SDL exporter -/

/-- A successful `mapE` relates input and output lists pointwise, in order. -/
lemma mapE_ok_forall₂ {α β : Type} {f : α → Except String β} :
    ∀ {l : List α} {r : List β}, mapE f l = .ok r →
      List.Forall₂ (fun a b => f a = .ok b) l r := by
  intro l
  induction l with
  | nil =>
      intro r h
      unfold mapE at h
      cases h
      exact .nil
  | cons a rest ih =>
      intro r h
      unfold mapE at h
      cases hfa : f a with
      | error e => simp only [hfa] at h; cases h
      | ok b =>
          simp only [hfa] at h
          cases hrest : mapE f rest with
          | error e => simp only [hrest] at h; cases h
          | ok bs =>
              simp only [hrest] at h
              cases h
              exact .cons hfa (ih hrest)

/-- Inversion of `Exporter.visit_item` on a `Root`: the result is a `Query`
type extension whose fields are the visited fields, in order. -/
lemma visit_item_root_ok {fs : List FieldOrLink} {d : DefinitionNode}
    (h : Exporter.visit_item (.root fs) = .ok d) :
    ∃ fdefs, d = .objectTypeExtension (some "Query") fdefs (some []) ∧
      List.Forall₂ (fun f fd => Exporter.visit_fieldOrLink f = .ok fd) fs fdefs := by
  unfold Exporter.visit_item at h
  cases heq : mapE Exporter.visit_fieldOrLink fs with
  | error e => simp only [heq] at h; cases h
  | ok fdefs =>
      simp only [heq] at h
      cases h
      exact ⟨fdefs, rfl, mapE_ok_forall₂ heq⟩

/-- Inversion of `Exporter.visit_item` on a named `Node`: the result is an
object type definition with the visited fields and directives, in order. -/
lemma visit_item_node_ok {n : String} {fs : List FieldOrLink}
    {descr : Option String} {dirs : List Directive} {d : DefinitionNode}
    (h : Exporter.visit_item (.node n fs descr dirs) = .ok d) :
    ∃ fdefs ddefs, d = .objectTypeDefinition (some n) fdefs (some ddefs) ∧
      List.Forall₂ (fun f fd => Exporter.visit_fieldOrLink f = .ok fd) fs fdefs ∧
      List.Forall₂ (fun dr dd => Exporter.visit_directive dr = .ok dd) dirs ddefs := by
  unfold Exporter.visit_item at h
  cases heqf : mapE Exporter.visit_fieldOrLink fs with
  | error e => simp only [heqf] at h; cases h
  | ok fdefs =>
      simp only [heqf] at h
      cases heqd : mapE Exporter.visit_directive dirs with
      | error e => simp only [heqd] at h; cases h
      | ok ddefs =>
          simp only [heqd] at h
          cases h
          exact ⟨fdefs, ddefs, rfl, mapE_ok_forall₂ heqf, mapE_ok_forall₂ heqd⟩

/-- C4: a successful `Exporter.visit_graph` produces, in this exact order,
the single `Any` scalar definition first, then one object-type definition per
`data_types` entry in mapping order, then one definition per graph item in
declaration order — a `Root` as a type extension of `Query` and every named
`Node` as an object type definition whose fields are visited in declaration
order. -/
theorem visit_graph_ordering (g : Graph) (defs : List DefinitionNode)
    (h : Exporter.visit_graph g = .ok defs) :
    ∃ itemDefs,
      defs = Exporter.get_any_type ::
        (g.data_types.map (fun p => Exporter.visit_record p.1 p.2) ++ itemDefs) ∧
      Exporter.get_any_type = .scalarTypeDefinition (some "Any") ∧
      (∀ tn r, Exporter.visit_record tn r =
        .objectTypeDefinition (some tn)
          (r.field_types.map (fun p => ⟨some p.1, _encode_type p.2, none, none⟩))
          none) ∧
      List.Forall₂ (fun it d =>
        (∀ fs, it = NodeItem.root fs →
          ∃ fdefs, d = .objectTypeExtension (some "Query") fdefs (some []) ∧
            List.Forall₂ (fun f fd => Exporter.visit_fieldOrLink f = .ok fd)
              fs fdefs) ∧
        (∀ n fs descr dirs, it = NodeItem.node n fs descr dirs →
          ∃ fdefs ddefs, d = .objectTypeDefinition (some n) fdefs (some ddefs) ∧
            List.Forall₂ (fun f fd => Exporter.visit_fieldOrLink f = .ok fd)
              fs fdefs))
        g.items itemDefs := by
  unfold Exporter.visit_graph at h
  cases heq : mapE Exporter.visit_item g.items with
  | error e => simp only [heq] at h; cases h
  | ok items =>
    simp only [heq] at h
    cases h
    refine ⟨items, rfl, rfl, fun tn r => rfl, ?_⟩
    refine (mapE_ok_forall₂ heq).imp ?_
    intro it d hv
    constructor
    · intro fs hfs
      subst hfs
      exact visit_item_root_ok hv
    · intro n fs descr dirs hn
      subst hn
      obtain ⟨fdefs, ddefs, hd, hf, _⟩ := visit_item_node_ok hv
      exact ⟨fdefs, ddefs, hd, hf⟩

/-- Witness for C4 at the concrete `exampleGraph`, whose export is
`exampleDefs`. -/
theorem visit_graph_ordering_witness :
    ∃ itemDefs,
      exampleDefs = Exporter.get_any_type ::
        (exampleGraph.data_types.map (fun p => Exporter.visit_record p.1 p.2) ++
          itemDefs) ∧
      Exporter.get_any_type = .scalarTypeDefinition (some "Any") ∧
      (∀ tn r, Exporter.visit_record tn r =
        .objectTypeDefinition (some tn)
          (r.field_types.map (fun p => ⟨some p.1, _encode_type p.2, none, none⟩))
          none) ∧
      List.Forall₂ (fun it d =>
        (∀ fs, it = NodeItem.root fs →
          ∃ fdefs, d = .objectTypeExtension (some "Query") fdefs (some []) ∧
            List.Forall₂ (fun f fd => Exporter.visit_fieldOrLink f = .ok fd)
              fs fdefs) ∧
        (∀ n fs descr dirs, it = NodeItem.node n fs descr dirs →
          ∃ fdefs ddefs, d = .objectTypeDefinition (some n) fdefs (some ddefs) ∧
            List.Forall₂ (fun f fd => Exporter.visit_fieldOrLink f = .ok fd)
              fs fdefs))
        exampleGraph.items itemDefs :=
  visit_graph_ordering exampleGraph exampleDefs rfl

/-! ## Properties of the stripping transformer -/

/-- The `GraphTransformer` default rebuilds an option equal to the input. -/
lemma transform_option_id (o : GOption) : transform_option o = o :=
  rfl

/-- Mapping the default option transformation over a list is the identity. -/
lemma map_transform_option_id (l : List GOption) : l.map transform_option = l := by
  induction l with
  | nil => rfl
  | cons o l ih => simp [transform_option_id, ih]

/-- The `GraphTransformer` defaults rebuild a field or link equal to the
input. -/
lemma transform_fieldOrLink_id (f : FieldOrLink) : transform_fieldOrLink f = f := by
  cases f with
  | fld f =>
      cases f
      simp [transform_fieldOrLink, transform_field, map_transform_option_id]
  | lnk l =>
      cases l
      simp [transform_fieldOrLink, transform_link, map_transform_option_id]

/-- Mapping the default transformation over a field list is the identity. -/
lemma map_transform_id (l : List FieldOrLink) :
    l.map transform_fieldOrLink = l := by
  induction l with
  | nil => rfl
  | cons f l ih => simp [transform_fieldOrLink_id, ih]

/-- Filtering twice with the same predicate filters once. -/
lemma filter_twice {α : Type} (p : α → Bool) (l : List α) :
    (l.filter p).filter p = l.filter p := by
  induction l with
  | nil => rfl
  | cons a l ih =>
      cases hpa : p a <;> simp [List.filter_cons, hpa, ih]

/-- A list with no match keeps having no match after any filtering. -/
lemma any_filter_false {α : Type} {q : α → Bool} (p : α → Bool) {l : List α}
    (h : l.any q = false) : (l.filter p).any q = false := by
  induction l with
  | nil => rfl
  | cons a l ih =>
      simp only [List.any_cons, Bool.or_eq_false_iff] at h
      cases hpa : p a <;>
        simp [List.filter_cons, hpa, List.any_cons, h.1, ih h.2]

/-- `_StripGraph`'s per-item pass is idempotent. -/
lemma strip_item_idem (it : NodeItem) :
    _StripGraph.visit_item (_StripGraph.visit_item it) = _StripGraph.visit_item it := by
  cases it with
  | root fs =>
      simp [_StripGraph.visit_item, _StripGraph.visit_root, map_transform_id,
        filter_twice]
  | node n fs d ds =>
      simp [_StripGraph.visit_item, _StripGraph.visit_node, map_transform_id,
        filter_twice]

/-- An item that is not skipped is still not skipped after stripping. -/
lemma skip_strip_item (it : NodeItem) (h : _StripGraph.skip it = false) :
    _StripGraph.skip (_StripGraph.visit_item it) = false := by
  cases it with
  | root fs =>
      simp only [_StripGraph.skip] at h
      simp [_StripGraph.visit_item, _StripGraph.visit_root, _StripGraph.skip,
        map_transform_id, any_filter_false _ h]
  | node n fs d ds =>
      simpa [_StripGraph.visit_item, _StripGraph.visit_node, _StripGraph.skip]
        using h

/-- C5: after the introspection-stripping pass, no surviving `Root` has a
field named `__typename`, `_entities` or `__schema`, and no surviving `Node`
has a `__typename` field or a name starting with `__`. -/
theorem strip_removes_introspection (g : Graph) (it : NodeItem)
    (h : it ∈ (_StripGraph.visit_graph g).items) :
    (∀ fs, it = NodeItem.root fs → ∀ f ∈ fs,
        f.name ≠ "__typename" ∧ f.name ≠ "_entities" ∧ f.name ≠ "__schema") ∧
    (∀ n fs descr dirs, it = NodeItem.node n fs descr dirs →
        startswith_dunder n = false ∧ ∀ f ∈ fs, f.name ≠ "__typename") := by
  obtain ⟨it₀, hmem, rfl⟩ := List.mem_map.mp h
  obtain ⟨hmem₀, hskip⟩ := List.mem_filter.mp hmem
  have hskip' : _StripGraph.skip it₀ = false := by simpa using hskip
  cases it₀ with
  | root fs₀ =>
      have hschema : ∀ f ∈ fs₀, ¬(f.name = "__schema") := by
        simpa [_StripGraph.skip, List.any_eq_false] using hskip'
      constructor
      · intro fs hfs f hf
        simp only [_StripGraph.visit_item, _StripGraph.visit_root,
          NodeItem.root.injEq] at hfs
        subst hfs
        obtain ⟨f₀, hf₀, rfl⟩ := List.mem_map.mp hf
        obtain ⟨hf₀m, hp⟩ := List.mem_filter.mp hf₀
        simp only [Bool.not_eq_true', Bool.or_eq_false_iff,
          beq_eq_false_iff_ne] at hp
        rw [transform_fieldOrLink_id]
        exact ⟨hp.1, hp.2, hschema f₀ hf₀m⟩
      · intro n fs descr dirs hfs
        simp [_StripGraph.visit_item, _StripGraph.visit_root] at hfs
  | node n₀ fs₀ d₀ ds₀ =>
      have hpref : startswith_dunder n₀ = false := by
        simpa [_StripGraph.skip] using hskip'
      constructor
      · intro fs hfs
        simp [_StripGraph.visit_item, _StripGraph.visit_node] at hfs
      · intro n fs descr dirs hfs
        simp only [_StripGraph.visit_item, _StripGraph.visit_node,
          NodeItem.node.injEq] at hfs
        obtain ⟨rfl, hfs, -, -⟩ := hfs
        subst hfs
        refine ⟨hpref, fun f hf => ?_⟩
        obtain ⟨f₀, hf₀, rfl⟩ := List.mem_map.mp hf
        obtain ⟨hf₀m, hp⟩ := List.mem_filter.mp hf₀
        simp only [Bool.not_eq_true', beq_eq_false_iff_ne] at hp
        rw [transform_fieldOrLink_id]
        exact hp

/-- Witness for C5: the surviving `User` node of the stripped
`introspectionGraph`. -/
theorem strip_removes_introspection_witness :
    (∀ fs, strippedUserNode = NodeItem.root fs → ∀ f ∈ fs,
        f.name ≠ "__typename" ∧ f.name ≠ "_entities" ∧ f.name ≠ "__schema") ∧
    (∀ n fs descr dirs, strippedUserNode = NodeItem.node n fs descr dirs →
        startswith_dunder n = false ∧ ∀ f ∈ fs, f.name ≠ "__typename") :=
  strip_removes_introspection introspectionGraph strippedUserNode
    (by rw [show (_StripGraph.visit_graph introspectionGraph).items =
          [strippedUserNode,
           NodeItem.root [.fld ⟨"version", some .String, [], none, []⟩]] from rfl]
        exact List.mem_cons_self _ _)

/-- C6: the introspection-stripping transformation is idempotent — stripping
a stripped graph returns a structurally identical graph. -/
theorem strip_idempotent (g : Graph) :
    _StripGraph.visit_graph (_StripGraph.visit_graph g) =
      _StripGraph.visit_graph g := by
  unfold _StripGraph.visit_graph
  refine congrArg (fun l => Graph.mk l g.data_types) ?_
  induction g.items with
  | nil => rfl
  | cons it l ih =>
      cases hs : _StripGraph.skip it with
      | false =>
          have hs2 := skip_strip_item it hs
          simp [List.filter_cons, hs, hs2, strip_item_idem, ih]
      | true =>
          simpa [List.filter_cons, hs] using ih

/-- C10: the stripping transformer passes the `data_types` mapping of the
input graph through unchanged, even though `items` is rebuilt. -/
theorem strip_preserves_data_types (g : Graph) :
    (_StripGraph.visit_graph g).data_types = g.data_types :=
  rfl

end Hiku
